import Mathlib

/-!
# kardigan: the CRI adapter (`crier`) and the pod bundle rule (`podRule`)

A shallow embedding of `crier/crier.go` and of `podRule.Apply` from `main.go`.

* Go `error` values are `Error`; a nil error is `none`.
* A Go function returning `(resp, err)` returns `Outcome.ret resp err`; a Go
  `panic` is `Outcome.panic`.
* The containerizer is an interface (`gardener.Containerizer`): its methods are
  state transformers over an arbitrary state `σ`.  Every call the adapter
  makes is appended to a call log, so that "which calls were made, with which
  arguments" can be stated.
* A Go `map` is the list of its entries, in the order in which `range` visits
  them; the keys of a map are pairwise distinct.
* Go `int` is 64 bits wide (linux/amd64), `int32(x)` wraps modulo `2^32`.
-/

namespace Kardigan

/-! ## Values shared by the adapter and the bundle rule -/

/-- Go `error` value (non-nil). -/
structure Error where
  msg : String
  deriving DecidableEq, Repr

/-- The type `specs.LinuxNamespaceType` is a Go string type. -/
abbrev LinuxNamespaceType := String

def PIDNamespace : LinuxNamespaceType := "pid"
def NetworkNamespace : LinuxNamespaceType := "network"
def MountNamespace : LinuxNamespaceType := "mount"
def IPCNamespace : LinuxNamespaceType := "ipc"
def UTSNamespace : LinuxNamespaceType := "uts"
def UserNamespace : LinuxNamespaceType := "user"

/-- The struct `specs.LinuxNamespace`; the Go field `Type` is `Type_` here. -/
structure LinuxNamespace where
  Type_ : LinuxNamespaceType
  Path : String
  deriving DecidableEq, Repr

/-- The struct `specs.Process`, with the fields the program sets or replaces. -/
structure Process where
  Args : List String := []
  Env : List String := []
  Cwd : String := ""
  Capabilities : List String := []
  ApparmorProfile : String := ""
  deriving DecidableEq, Repr

/-- The struct `gardener.DesiredContainerSpec`.  `NsPath` is a Go map, `Process`
a pointer that may be nil. -/
structure DesiredContainerSpec where
  Handle : String := ""
  RootFSPath : String := ""
  Hostname : String := ""
  Privileged : Bool := false
  Env : List String := []
  NsPath : List (LinuxNamespaceType × String) := []
  Process : Option Process := none
  deriving DecidableEq, Repr

/-- The struct `gardener.ActualContainerSpec`, as returned by `Info`. -/
structure ActualContainerSpec where
  Pid : Int := 0
  BundlePath : String := ""
  deriving DecidableEq, Repr

/-! ## The containerizer interface and the call log -/

/-- The interface `gardener.Containerizer`, restricted to the methods the adapter
calls.  A nil error is `none`. -/
structure Containerizer (σ : Type) where
  Create : DesiredContainerSpec → σ → Option Error × σ
  Start : String → σ → Option Error × σ
  Stop : String → Bool → σ → Option Error × σ
  Destroy : String → σ → Option Error × σ
  Info : String → σ → Except Error ActualContainerSpec × σ

/-- One call on the containerizer, with its arguments. -/
inductive Call where
  | Create (spec : DesiredContainerSpec)
  | Start (handle : String)
  | Stop (handle : String) (kill : Bool)
  | Destroy (handle : String)
  | Info (handle : String)
  deriving DecidableEq, Repr

/-- The world a request runs in: the state behind the containerizer and the
host, and the log of the containerizer calls made so far. -/
structure St (σ : Type) where
  inner : σ
  calls : List Call

/-- A version-4 identifier of package `uuid`, held as the text its method `String`
renders. -/
structure UUID where
  text : String
  deriving DecidableEq, Repr

/-- The method `(*UUID).String`. -/
def UUID.String (u : UUID) : String := u.text

/-- The host services the adapter reaches through library packages:
`uuid.NewV4`, `filepath.Join` and `ioutil.ReadFile`. -/
structure Host (σ : Type) where
  NewV4 : σ → Except Error UUID × σ
  Join : String → String → String
  ReadFile : String → σ → Except Error String

/-- The struct `crier`. -/
structure crier (σ : Type) where
  ctzr : Containerizer σ

/-- The result of a Go function `(resp *T, err error)`, or its panic. -/
inductive Outcome (α : Type) where
  | ret (resp : Option α) (err : Option Error)
  | panic (msg : String)
  deriving DecidableEq, Repr

variable {σ : Type}

def St.newV4 (h : Host σ) (w : St σ) : Except Error UUID × St σ :=
  ((h.NewV4 w.inner).1, { w with inner := (h.NewV4 w.inner).2 })

def crier.callCreate (c : crier σ) (spec : DesiredContainerSpec) (w : St σ) :
    Option Error × St σ :=
  ((c.ctzr.Create spec w.inner).1,
    { inner := (c.ctzr.Create spec w.inner).2, calls := w.calls ++ [Call.Create spec] })

def crier.callStart (c : crier σ) (handle : String) (w : St σ) : Option Error × St σ :=
  ((c.ctzr.Start handle w.inner).1,
    { inner := (c.ctzr.Start handle w.inner).2, calls := w.calls ++ [Call.Start handle] })

def crier.callStop (c : crier σ) (handle : String) (kill : Bool) (w : St σ) :
    Option Error × St σ :=
  ((c.ctzr.Stop handle kill w.inner).1,
    { inner := (c.ctzr.Stop handle kill w.inner).2,
      calls := w.calls ++ [Call.Stop handle kill] })

def crier.callDestroy (c : crier σ) (handle : String) (w : St σ) : Option Error × St σ :=
  ((c.ctzr.Destroy handle w.inner).1,
    { inner := (c.ctzr.Destroy handle w.inner).2, calls := w.calls ++ [Call.Destroy handle] })

def crier.callInfo (c : crier σ) (handle : String) (w : St σ) :
    Except Error ActualContainerSpec × St σ :=
  ((c.ctzr.Info handle w.inner).1,
    { inner := (c.ctzr.Info handle w.inner).2, calls := w.calls ++ [Call.Info handle] })

/-! ## CRI messages (`k8s.io/.../v1alpha1/runtime`), with their nil-safe getters -/

structure PodSandboxMetadata where
  Name : Option String := none
  Uid : Option String := none
  Namespace : Option String := none
  deriving DecidableEq, Repr

structure PodSandboxConfig where
  Metadata : Option PodSandboxMetadata := none
  Hostname : Option String := none
  deriving DecidableEq, Repr

structure RunPodSandboxRequest where
  Config : Option PodSandboxConfig := none
  deriving DecidableEq, Repr

structure RunPodSandboxResponse where
  PodSandboxId : Option String := none
  deriving DecidableEq, Repr

structure StopPodSandboxRequest where
  PodSandboxId : Option String := none
  deriving DecidableEq, Repr

structure StopPodSandboxResponse where
  deriving DecidableEq, Repr

structure RemovePodSandboxRequest where
  PodSandboxId : Option String := none
  deriving DecidableEq, Repr

structure RemovePodSandboxResponse where
  deriving DecidableEq, Repr

structure ImageSpec where
  Image : Option String := none
  deriving DecidableEq, Repr

structure ContainerConfig where
  Image : Option ImageSpec := none
  Command : List String := []
  Args : List String := []
  WorkingDir : Option String := none
  deriving DecidableEq, Repr

structure CreateContainerRequest where
  PodSandboxId : Option String := none
  Config : Option ContainerConfig := none
  SandboxConfig : Option PodSandboxConfig := none
  deriving DecidableEq, Repr

structure CreateContainerResponse where
  ContainerId : Option String := none
  deriving DecidableEq, Repr

structure StartContainerRequest where
  ContainerId : Option String := none
  deriving DecidableEq, Repr

structure StartContainerResponse where
  deriving DecidableEq, Repr

structure ContainerStatusRequest where
  ContainerId : Option String := none
  deriving DecidableEq, Repr

/-- The message `runtime.ContainerStatus`; `ExitCode` is a `*int32`. -/
structure ContainerStatus where
  ExitCode : Option Int := none
  deriving DecidableEq, Repr

structure ContainerStatusResponse where
  Status : Option ContainerStatus := none
  deriving DecidableEq, Repr

def PodSandboxConfig.GetHostname (m : Option PodSandboxConfig) : String :=
  match m with
  | some c => c.Hostname.getD ""
  | none => ""

def RunPodSandboxRequest.GetConfig (m : RunPodSandboxRequest) : Option PodSandboxConfig :=
  m.Config

def StopPodSandboxRequest.GetPodSandboxId (m : StopPodSandboxRequest) : String :=
  m.PodSandboxId.getD ""

def RemovePodSandboxRequest.GetPodSandboxId (m : RemovePodSandboxRequest) : String :=
  m.PodSandboxId.getD ""

def CreateContainerRequest.GetPodSandboxId (m : CreateContainerRequest) : String :=
  m.PodSandboxId.getD ""

def CreateContainerRequest.GetConfig (m : CreateContainerRequest) : Option ContainerConfig :=
  m.Config

def ContainerConfig.GetCommand (m : Option ContainerConfig) : List String :=
  match m with
  | some c => c.Command
  | none => []

def ContainerConfig.GetWorkingDir (m : Option ContainerConfig) : String :=
  match m with
  | some c => c.WorkingDir.getD ""
  | none => ""

def StartContainerRequest.GetContainerId (m : StartContainerRequest) : String :=
  m.ContainerId.getD ""

def ContainerStatusRequest.GetContainerId (m : ContainerStatusRequest) : String :=
  m.ContainerId.getD ""

/-! ## `strconv.Atoi` and the conversion `int32(x)` -/

def ErrSyntax : Error := ⟨"invalid syntax"⟩
def ErrRange : Error := ⟨"value out of range"⟩

/-- The digit loop of `strconv.ParseUint(s, 10, 64)`, with `n` the value read so
far: a byte that is not a decimal digit is a syntax error, a value that
leaves the range of `uint64` is a range error. -/
def parseUintLoop (n : Nat) : List Char → Except Error Nat
  | [] => .ok n
  | d :: rest =>
    if d.isDigit then
      if (2 ^ 64 - 1) / 10 + 1 ≤ n then .error ErrRange
      else if 2 ^ 64 - 1 < n * 10 + (d.toNat - 48) then .error ErrRange
      else parseUintLoop (n * 10 + (d.toNat - 48)) rest
    else .error ErrSyntax

/-- The function `strconv.ParseUint(s, 10, 64)`. -/
def ParseUint (s : List Char) : Except Error Nat :=
  match s with
  | [] => .error ErrSyntax
  | _ :: _ => parseUintLoop 0 s

/-- The function `strconv.Atoi`, that is `ParseInt(s, 10, 0)` with a 64-bit `int`:
an optional sign, then at least one decimal digit, and the value must lie in
`[-2^63, 2^63)`.  The content of a file is read as its characters; the
`*NumError` wrapper around the two errors is left out. -/
def Atoi (s : String) : Except Error Int :=
  match s.data with
  | [] => .error ErrSyntax
  | ch :: rest =>
    let neg : Bool := ch == '-'
    let digits : List Char := if ch == '+' || ch == '-' then rest else ch :: rest
    match ParseUint digits with
    | .error e => .error e
    | .ok un =>
      if !neg && 2 ^ 63 ≤ un then .error ErrRange
      else if neg && 2 ^ 63 < un then .error ErrRange
      else .ok (if neg then -(un : Int) else (un : Int))

/-- The Go conversion `int32(x)` of an `int`: the low 32 bits, read as signed. -/
def int32 (x : Int) : Int := (x + 2 ^ 31) % 2 ^ 32 - 2 ^ 31

/-- The call `fmt.Sprintf("%d", n)` on an `int`. -/
def fmtInt (n : Int) : String := toString n

/-- The number a list of decimal digits denotes, most significant digit first. -/
def decimalValue (ds : List Char) : Nat :=
  ds.foldl (fun acc d => acc * 10 + (d.toNat - 48)) 0

/-- The content `s` is a decimal integer that denotes `n`, in the words of the
exit-code artifact: an optional sign `+` or `-`, then one or more decimal
digits and nothing else, with `n` in the range of a 64-bit `int`.  This
definition does not mention `Atoi`; `Atoi_ok_iff` compares the two. -/
def IsDecimalInteger (s : String) (n : Int) : Prop :=
  ∃ ds : List Char, ds ≠ [] ∧ (∀ d ∈ ds, d.isDigit = true) ∧
    ((s.data = ds ∧ n = (decimalValue ds : Int)) ∨
      (s.data = '+' :: ds ∧ n = (decimalValue ds : Int)) ∨
      (s.data = '-' :: ds ∧ n = -(decimalValue ds : Int))) ∧
    -(2 ^ 63) ≤ n ∧ n < 2 ^ 63

/-! ## The adapter: `crier/crier.go` -/

def sandboxRootfsPath : String := "/opt/warden/rootfs"

/-- The spec `RunPodSandbox` hands to `Create`, for the identifier `id`. -/
def runPodSandboxSpec (id : String) (req : RunPodSandboxRequest) : DesiredContainerSpec :=
  { Handle := id
    RootFSPath := sandboxRootfsPath
    Hostname := PodSandboxConfig.GetHostname req.GetConfig }

def crier.RunPodSandbox (h : Host σ) (c : crier σ) (req : RunPodSandboxRequest) (w : St σ) :
    Outcome RunPodSandboxResponse × St σ :=
  let r1 := St.newV4 h w
  match r1.1 with
  | .error err => (.ret none (some err), r1.2)
  | .ok v4 =>
    let id := v4.String
    let r2 := c.callCreate (runPodSandboxSpec id req) r1.2
    match r2.1 with
    | some err => (.ret none (some err), r2.2)
    | none => (.ret (some { PodSandboxId := some id }) none, r2.2)

def crier.StopPodSandbox (c : crier σ) (req : StopPodSandboxRequest) (w : St σ) :
    Outcome StopPodSandboxResponse × St σ :=
  let r := c.callStop req.GetPodSandboxId true w
  (.ret (some {}) r.1, r.2)

def crier.RemovePodSandbox (c : crier σ) (req : RemovePodSandboxRequest) (w : St σ) :
    Outcome RemovePodSandboxResponse × St σ :=
  let r := c.callDestroy req.GetPodSandboxId w
  (.ret (some {}) r.1, r.2)

/-- The working directory `CreateContainer` computes: `cwd := "/"`, then
`if cwd == ""` the request's directory. -/
def createContainerCwd (req : CreateContainerRequest) : String :=
  let cwd := "/"
  if cwd = "" then ContainerConfig.GetWorkingDir req.GetConfig else cwd

/-- The spec `CreateContainer` hands to `Create`, for the identifier `id` and the
sandbox that `Info` returned. -/
def createContainerSpec (id : String) (sandbox : ActualContainerSpec)
    (req : CreateContainerRequest) : DesiredContainerSpec :=
  { Handle := id
    RootFSPath := sandboxRootfsPath
    NsPath :=
      [ (NetworkNamespace, "/proc/" ++ fmtInt sandbox.Pid ++ "/ns/net"),
        (UserNamespace, "/proc/" ++ fmtInt sandbox.Pid ++ "/ns/user") ]
    Process := some
      { Args := ContainerConfig.GetCommand req.GetConfig
        Cwd := createContainerCwd req } }

def crier.CreateContainer (h : Host σ) (c : crier σ) (req : CreateContainerRequest)
    (w : St σ) : Outcome CreateContainerResponse × St σ :=
  let r1 := St.newV4 h w
  match r1.1 with
  | .error err => (.ret none (some err), r1.2)
  | .ok v4 =>
    let r2 := c.callInfo req.GetPodSandboxId r1.2
    match r2.1 with
    | .error err => (.ret none (some err), r2.2)
    | .ok sandbox =>
      let id := v4.String
      let r3 := c.callCreate (createContainerSpec id sandbox req) r2.2
      match r3.1 with
      | some err => (.ret none (some err), r3.2)
      | none => (.ret (some { ContainerId := some id }) none, r3.2)

def crier.StartContainer (c : crier σ) (req : StartContainerRequest) (w : St σ) :
    Outcome StartContainerResponse × St σ :=
  let r := c.callStart req.GetContainerId w
  (.ret (some {}) r.1, r.2)

/-- The exit code `ContainerStatus` reads from the file `exitcode` of a bundle. -/
def readExitCode (h : Host σ) (bundlePath : String) (s : σ) : Option Int :=
  match h.ReadFile (h.Join bundlePath "exitcode") s with
  | .error _ => none
  | .ok b =>
    match Atoi b with
    | .error _ => none
    | .ok x => some (int32 x)

def crier.ContainerStatus (h : Host σ) (c : crier σ) (req : ContainerStatusRequest)
    (w : St σ) : Outcome ContainerStatusResponse × St σ :=
  let r := c.callInfo req.GetContainerId w
  match r.1 with
  | .error err => (.ret none (some err), r.2)
  | .ok info =>
    let exit := readExitCode h info.BundlePath r.2.inner
    (.ret (some { Status := some { ExitCode := exit } }) none, r.2)

/-! ### The operations that are not implemented -/

structure PodSandboxStatusRequest where
  PodSandboxId : Option String := none
  deriving DecidableEq, Repr

structure PodSandboxStatusResponse where
  deriving DecidableEq, Repr

structure ListPodSandboxRequest where
  deriving DecidableEq, Repr

structure ListPodSandboxResponse where
  deriving DecidableEq, Repr

structure StopContainerRequest where
  ContainerId : Option String := none
  deriving DecidableEq, Repr

structure StopContainerResponse where
  deriving DecidableEq, Repr

structure RemoveContainerRequest where
  ContainerId : Option String := none
  deriving DecidableEq, Repr

structure RemoveContainerResponse where
  deriving DecidableEq, Repr

structure ListContainersRequest where
  deriving DecidableEq, Repr

structure ListContainersResponse where
  deriving DecidableEq, Repr

structure ExecSyncRequest where
  ContainerId : Option String := none
  Cmd : List String := []
  deriving DecidableEq, Repr

structure ExecSyncResponse where
  deriving DecidableEq, Repr

structure ExecRequest where
  ContainerId : Option String := none
  Cmd : List String := []
  deriving DecidableEq, Repr

structure ExecResponse where
  deriving DecidableEq, Repr

structure AttachRequest where
  ContainerId : Option String := none
  deriving DecidableEq, Repr

structure AttachResponse where
  deriving DecidableEq, Repr

structure PortForwardRequest where
  PodSandboxId : Option String := none
  deriving DecidableEq, Repr

structure PortForwardResponse where
  deriving DecidableEq, Repr

structure UpdateRuntimeConfigRequest where
  deriving DecidableEq, Repr

structure UpdateRuntimeConfigResponse where
  deriving DecidableEq, Repr

structure StatusRequest where
  deriving DecidableEq, Repr

structure StatusResponse where
  deriving DecidableEq, Repr

def crier.PodSandboxStatus (_c : crier σ) (_req : PodSandboxStatusRequest) (w : St σ) :
    Outcome PodSandboxStatusResponse × St σ :=
  (.panic "not implemented", w)

def crier.ListPodSandbox (_c : crier σ) (_req : ListPodSandboxRequest) (w : St σ) :
    Outcome ListPodSandboxResponse × St σ :=
  (.panic "not implemented", w)

def crier.StopContainer (_c : crier σ) (_req : StopContainerRequest) (w : St σ) :
    Outcome StopContainerResponse × St σ :=
  (.panic "not implemented", w)

def crier.RemoveContainer (_c : crier σ) (_req : RemoveContainerRequest) (w : St σ) :
    Outcome RemoveContainerResponse × St σ :=
  (.panic "not implemented", w)

def crier.ListContainers (_c : crier σ) (_req : ListContainersRequest) (w : St σ) :
    Outcome ListContainersResponse × St σ :=
  (.panic "not implemented", w)

def crier.ExecSync (_c : crier σ) (_req : ExecSyncRequest) (w : St σ) :
    Outcome ExecSyncResponse × St σ :=
  (.panic "not implemented", w)

def crier.Exec (_c : crier σ) (_req : ExecRequest) (w : St σ) :
    Outcome ExecResponse × St σ :=
  (.panic "not implemented", w)

def crier.Attach (_c : crier σ) (_req : AttachRequest) (w : St σ) :
    Outcome AttachResponse × St σ :=
  (.panic "not implemented", w)

def crier.PortForward (_c : crier σ) (_req : PortForwardRequest) (w : St σ) :
    Outcome PortForwardResponse × St σ :=
  (.panic "not implemented", w)

def crier.UpdateRuntimeConfig (_c : crier σ) (_req : UpdateRuntimeConfigRequest) (w : St σ) :
    Outcome UpdateRuntimeConfigResponse × St σ :=
  (.panic "not implemented", w)

def crier.Status (_c : crier σ) (_req : StatusRequest) (w : St σ) :
    Outcome StatusResponse × St σ :=
  (.panic "not implemented", w)

/-- An outcome is a structured failure when the function returned, with a
non-nil error. -/
def Outcome.isFailure {α : Type} : Outcome α → Bool
  | .ret _ (some _) => true
  | _ => false

/-- An outcome that terminates the serving process. -/
def Outcome.isPanic {α : Type} : Outcome α → Bool
  | .panic _ => true
  | _ => false

/-! ## The pod bundle rule: `podRule.Apply` in `main.go` -/

/-- The struct `specs.Mount`. -/
structure Mount where
  Destination : String := ""
  Type_ : String := ""
  Source : String := ""
  Options : List String := []
  deriving DecidableEq, Repr

/-- The value `goci.Bndl`: an OCI runtime configuration under construction. -/
structure Bndl where
  Hostname : String := ""
  RootPath : String := ""
  Process : Process := {}
  Mounts : List Mount := []
  Namespaces : List LinuxNamespace := []
  MaskedPaths : List String := []
  deriving DecidableEq, Repr

/-- Modelled from the spec: the namespace-list update behind `goci.Bndl.WithNamespace`
(package `goci` is not part of the sources).  The spec has it override the
entry of the given kind in the bundle's namespace list, or add the entry to
the list when the kind has none: the first entry of that kind is replaced
where it stands, and an entry of a new kind goes to the end of the list. -/
def NamespaceSlice.Set (slice : List LinuxNamespace) (ns : LinuxNamespace) :
    List LinuxNamespace :=
  match slice with
  | [] => [ns]
  | namespace_ :: rest =>
    if namespace_.Type_ = ns.Type_ then ns :: rest
    else namespace_ :: NamespaceSlice.Set rest ns

/-- Modelled from the spec: `goci.Bndl.WithNamespace`, which returns the bundle with
the namespace entry overridden or added; no other field changes. -/
def Bndl.WithNamespace (b : Bndl) (ns : LinuxNamespace) : Bndl :=
  { b with Namespaces := NamespaceSlice.Set b.Namespaces ns }

/-- Modelled from the spec: `goci.Bndl.WithProcess`, which returns the bundle with
its process descriptor replaced by the given one; no other field changes. -/
def Bndl.WithProcess (b : Bndl) (process : Kardigan.Process) : Bndl :=
  { b with Process := process }

/-- The method `podRule.Apply`.  The loop `for ns, path := range spec.NsPath` visits
the entries of the map in the order of the list `spec.NsPath`. -/
def podRule.Apply (bndl : Bndl) (spec : DesiredContainerSpec) : Bndl :=
  let bndl := spec.NsPath.foldl
    (fun bndl e => bndl.WithNamespace { Type_ := e.1, Path := e.2 }) bndl
  match spec.Process with
  | some process => bndl.WithProcess process
  | none => bndl

/-- The value `baseProcess` of `wireContainerizer`; the capability list
`UnprivilegedMaxCaps` is declared outside the sources. -/
def baseProcess (UnprivilegedMaxCaps : List String) : Process :=
  { Capabilities := UnprivilegedMaxCaps
    Args := ["/tmp/garden-init"]
    Cwd := "/" }

/-- The keys of a Go map are pairwise distinct. -/
def DesiredContainerSpec.WellFormed (s : DesiredContainerSpec) : Prop :=
  (s.NsPath.map Prod.fst).Nodup

/-- A bundle with at most one namespace entry per kind. -/
def Bndl.OnePerKind (b : Bndl) : Prop :=
  (b.Namespaces.map LinuxNamespace.Type_).Nodup

instance (s : DesiredContainerSpec) : Decidable s.WellFormed := by
  unfold DesiredContainerSpec.WellFormed
  infer_instance

instance (b : Bndl) : Decidable b.OnePerKind := by
  unfold Bndl.OnePerKind
  infer_instance

/-- The kinds of the entries of a namespace list, in order. -/
def kinds (l : List LinuxNamespace) : List LinuxNamespaceType :=
  l.map LinuxNamespace.Type_

/-- The namespace list after the loop of `podRule.Apply` has visited the entries
`m` in order, starting from the list `slice`. -/
def setAll (slice : List LinuxNamespace) (m : List (LinuxNamespaceType × String)) :
    List LinuxNamespace :=
  m.foldl (fun acc e => NamespaceSlice.Set acc { Type_ := e.1, Path := e.2 }) slice

/-! ## A small in-memory containerizer and host, for concrete runs -/

/-- The state of the in-memory containerizer: the specs created so far, the
files on disk, and the number of identifiers handed out. -/
structure MemState where
  created : List DesiredContainerSpec := []
  files : List (String × String) := []
  issued : Nat := 0
  deriving DecidableEq, Repr

def memKnows (handle : String) (s : MemState) : Bool :=
  s.created.any (fun spec => spec.Handle == handle)

/-- An in-memory containerizer: `Create` refuses a handle it already holds, the
other methods refuse a handle it does not hold; a container runs as process
`4242` with its bundle under `/depot`. -/
def memCtzr : Containerizer MemState where
  Create := fun spec s =>
    if memKnows spec.Handle s then (some ⟨"handle already exists"⟩, s)
    else (none, { s with created := s.created ++ [spec] })
  Start := fun handle s =>
    if memKnows handle s then (none, s) else (some ⟨"unknown handle"⟩, s)
  Stop := fun handle _ s =>
    if memKnows handle s then (none, s) else (some ⟨"unknown handle"⟩, s)
  Destroy := fun handle s =>
    if memKnows handle s then
      (none, { s with created := s.created.filter (fun spec => spec.Handle != handle) })
    else (some ⟨"unknown handle"⟩, s)
  Info := fun handle s =>
    if memKnows handle s then (.ok { Pid := 4242, BundlePath := "/depot/" ++ handle }, s)
    else (.error ⟨"unknown handle"⟩, s)

/-- An in-memory host: identifiers `id-0`, `id-1`, ..., files looked up by path. -/
def memHost : Host MemState where
  NewV4 := fun s => (.ok ⟨"id-" ++ toString s.issued⟩, { s with issued := s.issued + 1 })
  Join := fun dir name => dir ++ "/" ++ name
  ReadFile := fun path s =>
    match s.files.lookup path with
    | some content => .ok content
    | none => .error ⟨"no such file or directory"⟩

def memCrier : crier MemState := { ctzr := memCtzr }

/-- A world in which the sandbox `pod` exists and nothing else. -/
def memWorld : St MemState :=
  { inner := { created := [{ Handle := "pod", RootFSPath := sandboxRootfsPath }] }
    calls := [] }

/-- A world in which the container `ctr` exists and has exited with code 55. -/
def memWorldExited : St MemState :=
  { inner :=
      { created := [{ Handle := "ctr", RootFSPath := sandboxRootfsPath }]
        files := [("/depot/ctr/exitcode", "55")] }
    calls := [] }

/-- A world in which the container `ctr` exists and its exit-code file holds text
that is not a number. -/
def memWorldGarbled : St MemState :=
  { inner :=
      { created := [{ Handle := "ctr", RootFSPath := sandboxRootfsPath }]
        files := [("/depot/ctr/exitcode", "abc")] }
    calls := [] }

/-- A world in which the sandbox `pod` exists and the handle `id-0`, the next
identifier the host hands out, is already taken. -/
def memWorldClash : St MemState :=
  { inner :=
      { created :=
          [ { Handle := "pod", RootFSPath := sandboxRootfsPath },
            { Handle := "id-0", RootFSPath := sandboxRootfsPath } ] }
    calls := [] }

/-- A request for a container in sandbox `pod` that asks for the working
directory `/tmp`. -/
def reqWithWorkingDir : CreateContainerRequest :=
  { PodSandboxId := some "pod"
    Config := some { Command := ["/bin/sh", "-c", "exit 55"], WorkingDir := some "/tmp" } }

/-- A base bundle as `Base` seeds it: the process descriptor `baseProcess`, and a
fresh namespace of each kind. -/
def sampleBase : Bndl :=
  { Hostname := "the-hostname"
    RootPath := "/opt/warden/rootfs"
    Process := baseProcess ["CAP_CHOWN", "CAP_KILL"]
    Namespaces :=
      [ { Type_ := NetworkNamespace, Path := "" }, { Type_ := PIDNamespace, Path := "" },
        { Type_ := UTSNamespace, Path := "" }, { Type_ := IPCNamespace, Path := "" },
        { Type_ := MountNamespace, Path := "" }, { Type_ := UserNamespace, Path := "" } ] }

/-- The spec `CreateContainer` builds for `reqWithWorkingDir` in a sandbox that runs
as process 4242. -/
def sampleSpec : DesiredContainerSpec :=
  createContainerSpec "id-0" { Pid := 4242, BundlePath := "/depot/pod" } reqWithWorkingDir

/-- A spec with the namespace map of `sampleSpec` and no process descriptor. -/
def specNetworkFirst : DesiredContainerSpec :=
  { NsPath := [(NetworkNamespace, "/proc/4242/ns/net"), (UserNamespace, "/proc/4242/ns/user")] }

/-! ## Theorems about the adapter -/

theorem createContainer_run (h : Host σ) (c : crier σ) (req : CreateContainerRequest)
    (w : St σ) (v4 : UUID) (sandbox : ActualContainerSpec)
    (hid : (h.NewV4 w.inner).1 = .ok v4)
    (hinfo : (c.ctzr.Info req.GetPodSandboxId (h.NewV4 w.inner).2).1 = .ok sandbox) :
    (crier.CreateContainer h c req w).2.calls =
      w.calls ++ [Call.Info req.GetPodSandboxId,
        Call.Create (createContainerSpec v4.String sandbox req)] := by
  unfold crier.CreateContainer
  simp only [St.newV4, hid, crier.callInfo, hinfo, crier.callCreate]
  split <;> simp

/-- C1: when the sandbox lookup of `CreateContainer` returns a sandbox with process
id `P`, the adapter calls `Info` and then `Create`, and the spec handed to
`Create` has a namespace map with exactly the two entries
network -> `/proc/P/ns/net` and user -> `/proc/P/ns/user` (`P` in decimal, as
`fmtInt` renders it); mount, ipc, pid and uts are not keys of that map. -/
theorem createContainer_namespace_map (h : Host σ) (c : crier σ)
    (req : CreateContainerRequest) (w : St σ) (v4 : UUID) (sandbox : ActualContainerSpec)
    (hid : (h.NewV4 w.inner).1 = .ok v4)
    (hinfo : (c.ctzr.Info req.GetPodSandboxId (h.NewV4 w.inner).2).1 = .ok sandbox) :
    ∃ spec : DesiredContainerSpec,
      (crier.CreateContainer h c req w).2.calls =
        w.calls ++ [Call.Info req.GetPodSandboxId, Call.Create spec] ∧
      (∀ k p, (k, p) ∈ spec.NsPath ↔
        (k = "network" ∧ p = "/proc/" ++ fmtInt sandbox.Pid ++ "/ns/net") ∨
        (k = "user" ∧ p = "/proc/" ++ fmtInt sandbox.Pid ++ "/ns/user")) ∧
      spec.NsPath.length = 2 ∧
      (spec.NsPath.map Prod.fst).Nodup ∧
      MountNamespace ∉ spec.NsPath.map Prod.fst ∧
      IPCNamespace ∉ spec.NsPath.map Prod.fst ∧
      PIDNamespace ∉ spec.NsPath.map Prod.fst ∧
      UTSNamespace ∉ spec.NsPath.map Prod.fst := by
  refine ⟨createContainerSpec v4.String sandbox req,
    createContainer_run h c req w v4 sandbox hid hinfo, ?_, rfl, ?_, ?_, ?_, ?_, ?_⟩
  · intro k p
    simp [createContainerSpec, NetworkNamespace, UserNamespace]
  · simp [createContainerSpec, NetworkNamespace, UserNamespace]
  · simp [createContainerSpec, NetworkNamespace, UserNamespace, MountNamespace]
  · simp [createContainerSpec, NetworkNamespace, UserNamespace, IPCNamespace]
  · simp [createContainerSpec, NetworkNamespace, UserNamespace, PIDNamespace]
  · simp [createContainerSpec, NetworkNamespace, UserNamespace, UTSNamespace]

/-- Witness for C1: in the in-memory world the sandbox `pod` runs as process 4242,
and the spec created for a container in it shares `/proc/4242/ns/net` and
`/proc/4242/ns/user`. -/
theorem createContainer_namespace_map_witness :
    ∃ spec : DesiredContainerSpec,
      (crier.CreateContainer memHost memCrier { PodSandboxId := some "pod" } memWorld).2.calls =
        memWorld.calls ++ [Call.Info "pod", Call.Create spec] ∧
      (∀ k p, (k, p) ∈ spec.NsPath ↔
        (k = "network" ∧ p = "/proc/4242/ns/net") ∨
        (k = "user" ∧ p = "/proc/4242/ns/user")) ∧
      spec.NsPath.length = 2 ∧
      (spec.NsPath.map Prod.fst).Nodup ∧
      MountNamespace ∉ spec.NsPath.map Prod.fst ∧
      IPCNamespace ∉ spec.NsPath.map Prod.fst ∧
      PIDNamespace ∉ spec.NsPath.map Prod.fst ∧
      UTSNamespace ∉ spec.NsPath.map Prod.fst :=
  createContainer_namespace_map memHost memCrier { PodSandboxId := some "pod" } memWorld
    ⟨"id-0"⟩ { Pid := 4242, BundlePath := "/depot/pod" } rfl rfl

theorem createContainerCwd_eq (req : CreateContainerRequest) :
    createContainerCwd req = "/" := by
  simp [createContainerCwd]

/-- C2: at a request whose working directory is `/tmp`, the spec handed to `Create`
carries the request's command as `Args`, but its `Cwd` is `/`, not the
requested `/tmp`: the request's working directory is never read. -/
theorem createContainer_cwd_ignores_request :
    ContainerConfig.GetWorkingDir reqWithWorkingDir.GetConfig = "/tmp" ∧
    (crier.CreateContainer memHost memCrier reqWithWorkingDir memWorld).2.calls =
      [ Call.Info "pod",
        Call.Create
          { Handle := "id-0"
            RootFSPath := "/opt/warden/rootfs"
            NsPath := [("network", "/proc/4242/ns/net"), ("user", "/proc/4242/ns/user")]
            Process := some { Args := ["/bin/sh", "-c", "exit 55"], Cwd := "/" } } ] := by
  constructor
  · rfl
  · rfl

/-- C3, as stated, fails: `PodSandboxStatus` does not return a failure without
panicking. -/
theorem podSandboxStatus_not_a_failure :
    ¬ ((crier.PodSandboxStatus memCrier {} memWorld).1.isFailure = true ∧
       (crier.PodSandboxStatus memCrier {} memWorld).1.isPanic = false) := by
  decide

/-- C3, amended: each of the eleven operations that are not implemented, for every
request, panics with the message `not implemented`; it returns neither a
response nor an error, and makes no containerizer call. -/
theorem unimplemented_operations_panic (c : crier σ) (w : St σ)
    (r1 : PodSandboxStatusRequest) (r2 : ListPodSandboxRequest) (r3 : StopContainerRequest)
    (r4 : RemoveContainerRequest) (r5 : ListContainersRequest) (r6 : ExecSyncRequest)
    (r7 : ExecRequest) (r8 : AttachRequest) (r9 : PortForwardRequest)
    (r10 : UpdateRuntimeConfigRequest) (r11 : StatusRequest) :
    c.PodSandboxStatus r1 w = (Outcome.panic "not implemented", w) ∧
    c.ListPodSandbox r2 w = (Outcome.panic "not implemented", w) ∧
    c.StopContainer r3 w = (Outcome.panic "not implemented", w) ∧
    c.RemoveContainer r4 w = (Outcome.panic "not implemented", w) ∧
    c.ListContainers r5 w = (Outcome.panic "not implemented", w) ∧
    c.ExecSync r6 w = (Outcome.panic "not implemented", w) ∧
    c.Exec r7 w = (Outcome.panic "not implemented", w) ∧
    c.Attach r8 w = (Outcome.panic "not implemented", w) ∧
    c.PortForward r9 w = (Outcome.panic "not implemented", w) ∧
    c.UpdateRuntimeConfig r10 w = (Outcome.panic "not implemented", w) ∧
    c.Status r11 w = (Outcome.panic "not implemented", w) :=
  ⟨rfl, rfl, rfl, rfl, rfl, rfl, rfl, rfl, rfl, rfl, rfl⟩

/-! ### Decimal rendering and parsing -/

theorem parseUintLoop_digitChar (d acc : Nat) (ds : List Char) (hd : d < 10)
    (hacc : acc * 10 + d < 2 ^ 64) :
    parseUintLoop acc (Nat.digitChar d :: ds) = parseUintLoop (acc * 10 + d) ds := by
  have h : (Nat.digitChar d).isDigit = true ∧ (Nat.digitChar d).toNat - 48 = d := by
    interval_cases d <;> decide
  have h1 : ¬ (2 ^ 64 - 1) / 10 + 1 ≤ acc := by omega
  have h2 : ¬ 2 ^ 64 - 1 < acc * 10 + d := by omega
  rw [parseUintLoop]
  simp only [h.1, h.2, if_true, h1, h2, if_false]

theorem parseUintLoop_toDigitsCore (fuel : Nat) :
    ∀ (n : Nat) (ds : List Char), n < fuel →
      ∃ k, ∀ acc, acc * 10 ^ k + n < 2 ^ 64 →
        parseUintLoop acc (Nat.toDigitsCore 10 fuel n ds) =
          parseUintLoop (acc * 10 ^ k + n) ds := by
  induction fuel with
  | zero => intro n ds h; omega
  | succ fuel ih =>
    intro n ds hn
    unfold Nat.toDigitsCore
    by_cases h0 : n / 10 = 0
    · refine ⟨1, fun acc hacc => ?_⟩
      have hlt : n < 10 := by omega
      simp only [h0, if_true]
      rw [Nat.mod_eq_of_lt hlt, pow_one]
      rw [pow_one] at hacc
      exact parseUintLoop_digitChar n acc ds hlt hacc
    · obtain ⟨k, hk⟩ := ih (n / 10) (Nat.digitChar (n % 10) :: ds) (by omega)
      refine ⟨k + 1, fun acc hacc => ?_⟩
      simp only [h0, if_false]
      have hsplit : (acc * 10 ^ k + n / 10) * 10 + n % 10 = acc * 10 ^ (k + 1) + n := by
        have := Nat.div_add_mod n 10
        rw [pow_succ]
        nlinarith
      have hsmall : acc * 10 ^ k + n / 10 < 2 ^ 64 := by omega
      rw [hk acc hsmall,
        parseUintLoop_digitChar _ _ _ (Nat.mod_lt _ (by decide)) (by omega), hsplit]

theorem parseUintLoop_toDigits (n : Nat) (hn : n < 2 ^ 64) :
    parseUintLoop 0 (Nat.toDigits 10 n) = .ok n := by
  obtain ⟨k, hk⟩ := parseUintLoop_toDigitsCore (n + 1) n [] (by omega)
  unfold Nat.toDigits
  rw [hk 0 (by omega)]
  simp [parseUintLoop]

theorem toDigits_ne_nil (n : Nat) : Nat.toDigits 10 n ≠ [] := by
  intro h
  have hlen := congrArg List.length h
  unfold Nat.toDigits Nat.toDigitsCore at hlen
  by_cases h0 : n / 10 = 0
  · simp [h0] at hlen
  · simp only [h0, if_false] at hlen
    rw [Nat.toDigitsCore_lens_eq] at hlen
    simp at hlen

theorem ParseUint_toDigits (n : Nat) (hn : n < 2 ^ 64) :
    ParseUint (Nat.toDigits 10 n) = .ok n := by
  unfold ParseUint
  cases hd : Nat.toDigits 10 n with
  | nil => exact absurd hd (toDigits_ne_nil n)
  | cons c cs =>
    simp only
    rw [← hd, parseUintLoop_toDigits n hn]

theorem Atoi_of_digits (ds : List Char) (m : Nat)
    (hp : ParseUint ds = .ok m) (hm : m < 2 ^ 63) :
    Atoi (String.mk ds) = .ok (m : Int) := by
  cases ds with
  | nil => simp [ParseUint] at hp
  | cons ch rest =>
    have hdig : ch.isDigit = true := by
      by_contra hc
      simp [ParseUint, parseUintLoop, hc] at hp
    have hplus : (ch == '+') = false := by
      rw [beq_eq_false_iff_ne]
      intro e
      rw [e] at hdig
      exact absurd hdig (by decide)
    have hminus : (ch == '-') = false := by
      rw [beq_eq_false_iff_ne]
      intro e
      rw [e] at hdig
      exact absurd hdig (by decide)
    have hlt2 : ¬ 9223372036854775808 ≤ m := by omega
    simp [Atoi, hplus, hminus, hp, hlt2]

theorem Atoi_of_minus_digits (ds : List Char) (m : Nat)
    (hp : ParseUint ds = .ok m) (hm : m ≤ 2 ^ 63) :
    Atoi (String.mk ('-' :: ds)) = .ok (-(m : Int)) := by
  have hlt : m ≤ 9223372036854775808 := by omega
  simp [Atoi, hp, hlt]

/-- The parser `Atoi` reads back every 64-bit integer from its decimal rendering. -/
theorem Atoi_fmtInt (n : Int) (hlo : -(2 ^ 63) ≤ n) (hhi : n < 2 ^ 63) :
    Atoi (fmtInt n) = .ok n := by
  cases n with
  | ofNat m =>
    have hm : m < 2 ^ 63 := by
      have : (m : Int) < 2 ^ 63 := hhi
      exact_mod_cast this
    exact Atoi_of_digits (Nat.toDigits 10 m) m (ParseUint_toDigits m (by omega)) hm
  | negSucc m =>
    have hm : m + 1 ≤ 2 ^ 63 := by
      have h1 : -(2 ^ 63 : Int) ≤ Int.negSucc m := hlo
      rw [Int.negSucc_eq] at h1
      have h2 : ((m : Int) + 1) ≤ 2 ^ 63 := by linarith
      exact_mod_cast h2
    have h := Atoi_of_minus_digits (Nat.toDigits 10 (m + 1)) (m + 1)
      (ParseUint_toDigits (m + 1) (by omega)) hm
    rw [Int.negSucc_eq]
    exact_mod_cast h

theorem int32_of_inRange (n : Int) (hlo : -(2 ^ 31) ≤ n) (hhi : n < 2 ^ 31) : int32 n = n := by
  unfold int32
  rw [Int.emod_eq_of_lt (by omega) (by omega)]
  omega

theorem int32_range (n : Int) : -(2 ^ 31) ≤ int32 n ∧ int32 n < 2 ^ 31 := by
  unfold int32
  have h1 := Int.emod_nonneg (n + 2 ^ 31) (b := 2 ^ 32) (by decide)
  have h2 := Int.emod_lt_of_pos (n + 2 ^ 31) (b := 2 ^ 32) (by decide)
  omega

/-- C4: when the `Info` lookup of `ContainerStatus` succeeds, the file `exitcode`
under the bundle path is readable and `strconv.Atoi` parses its content as
the integer `n`, `ContainerStatus` returns a response and no error, and the
exit code of the response is `int32(n)`: a 32-bit signed value, equal to `n`
whenever `n` fits in 32 bits.  The parse is the decimal one: a content that
is the decimal rendering of a 64-bit integer `m` parses as `m`. -/
theorem containerStatus_exit_code (h : Host σ) (c : crier σ) (req : ContainerStatusRequest)
    (w : St σ) (info : ActualContainerSpec) (content : String) (n : Int)
    (hinfo : (c.ctzr.Info req.GetContainerId w.inner).1 = .ok info)
    (hread : h.ReadFile (h.Join info.BundlePath "exitcode")
      (c.ctzr.Info req.GetContainerId w.inner).2 = .ok content)
    (hparse : Atoi content = .ok n) :
    (crier.ContainerStatus h c req w).1 =
        .ret (some { Status := some { ExitCode := some (int32 n) } }) none ∧
      -(2 ^ 31) ≤ int32 n ∧ int32 n < 2 ^ 31 ∧
      (-(2 ^ 31) ≤ n → n < 2 ^ 31 → int32 n = n) ∧
      (∀ m : Int, -(2 ^ 63) ≤ m → m < 2 ^ 63 → content = fmtInt m → n = m) := by
  refine ⟨?_, (int32_range n).1, (int32_range n).2, int32_of_inRange n, ?_⟩
  · simp [crier.ContainerStatus, crier.callInfo, hinfo, readExitCode, hread, hparse]
  · intro m hlo hhi hc
    rw [hc, Atoi_fmtInt m hlo hhi] at hparse
    exact (Except.ok.inj hparse).symm

/-- Witness for C4: the exit-code file of container `ctr` holds `55`, and
`ContainerStatus` reports exit code 55. -/
theorem containerStatus_exit_code_witness :
    (crier.ContainerStatus memHost memCrier { ContainerId := some "ctr" } memWorldExited).1 =
        .ret (some { Status := some { ExitCode := some 55 } }) none ∧
      fmtInt 55 = "55" :=
  ⟨(containerStatus_exit_code memHost memCrier { ContainerId := some "ctr" } memWorldExited
      { Pid := 4242, BundlePath := "/depot/ctr" } "55" 55 rfl rfl rfl).1, rfl⟩

/-! ### What `Atoi` accepts and what it rejects -/

theorem isDigit_toNat_sub_le (d : Char) (hd : d.isDigit = true) : d.toNat - 48 ≤ 9 := by
  simp only [Char.isDigit, Bool.and_eq_true, decide_eq_true_eq] at hd
  have h2 : d.val.toNat ≤ 57 := hd.2
  show d.val.toNat - 48 ≤ 9
  omega

theorem le_foldl_digits (ds : List Char) :
    ∀ acc : Nat, acc ≤ ds.foldl (fun acc d => acc * 10 + (d.toNat - 48)) acc := by
  induction ds with
  | nil => intro acc; exact Nat.le_refl _
  | cons d rest ih =>
    intro acc
    have h := ih (acc * 10 + (d.toNat - 48))
    simp only [List.foldl_cons]
    omega

theorem parseUintLoop_ok_iff (ds : List Char) :
    ∀ (acc m : Nat), acc < 2 ^ 64 →
      (parseUintLoop acc ds = .ok m ↔
        (∀ d ∈ ds, d.isDigit = true) ∧
          m = ds.foldl (fun acc d => acc * 10 + (d.toNat - 48)) acc ∧ m < 2 ^ 64) := by
  induction ds with
  | nil =>
    intro acc m hacc
    simp only [parseUintLoop, List.foldl_nil, List.not_mem_nil, false_implies, implies_true,
      true_and]
    constructor
    · intro h
      have := Except.ok.inj h
      omega
    · intro h
      rw [h.1]
  | cons d rest ih =>
    intro acc m hacc
    rw [parseUintLoop]
    by_cases hd : d.isDigit = true
    · have hv := isDigit_toNat_sub_le d hd
      have hge := le_foldl_digits rest (acc * 10 + (d.toNat - 48))
      simp only [hd, if_true, List.foldl_cons, List.mem_cons, forall_eq_or_imp, true_and]
      by_cases h1 : (2 ^ 64 - 1) / 10 + 1 ≤ acc
      · simp only [h1, if_true]
        constructor
        · intro h
          cases h
        · intro h
          omega
      · simp only [h1, if_false]
        by_cases h2 : 2 ^ 64 - 1 < acc * 10 + (d.toNat - 48)
        · simp only [h2, if_true]
          constructor
          · intro h
            cases h
          · intro h
            omega
        · simp only [h2, if_false]
          exact ih (acc * 10 + (d.toNat - 48)) m (by omega)
    · simp only [hd, List.mem_cons, forall_eq_or_imp]
      constructor
      · intro h
        simp at h
      · intro h
        exact absurd h.1.1 (by simp)

theorem ParseUint_ok_iff (ds : List Char) (m : Nat) :
    ParseUint ds = .ok m ↔
      ds ≠ [] ∧ (∀ d ∈ ds, d.isDigit = true) ∧ m = decimalValue ds ∧ m < 2 ^ 64 := by
  cases ds with
  | nil => simp [ParseUint]
  | cons d rest =>
    have h := parseUintLoop_ok_iff (d :: rest) 0 m (by decide)
    simp only [ParseUint, decimalValue, ne_eq, reduceCtorEq, not_false_eq_true, true_and]
    exact h

/-- The result of `Atoi` once the sign is taken off: the unsigned parse of the
digits, refused when it leaves the range of a 64-bit `int`. -/
theorem Atoi_cases (s : String) :
    (s.data = [] → Atoi s = .error ErrSyntax) ∧
    (∀ rest, s.data = '+' :: rest →
      Atoi s = match ParseUint rest with
        | .error e => .error e
        | .ok un => if 2 ^ 63 ≤ un then .error ErrRange else .ok (un : Int)) ∧
    (∀ rest, s.data = '-' :: rest →
      Atoi s = match ParseUint rest with
        | .error e => .error e
        | .ok un => if 2 ^ 63 < un then .error ErrRange else .ok (-(un : Int))) ∧
    (∀ ch rest, s.data = ch :: rest → ch ≠ '+' → ch ≠ '-' →
      Atoi s = match ParseUint (ch :: rest) with
        | .error e => .error e
        | .ok un => if 2 ^ 63 ≤ un then .error ErrRange else .ok (un : Int)) := by
  refine ⟨?_, ?_, ?_, ?_⟩
  · intro h
    simp [Atoi, h]
  · intro rest h
    cases hpu : ParseUint rest with
    | error e => simp [Atoi, h, hpu]
    | ok un => simp [Atoi, h, hpu]
  · intro rest h
    cases hpu : ParseUint rest with
    | error e => simp [Atoi, h, hpu]
    | ok un => simp [Atoi, h, hpu]
  · intro ch rest h hp hm
    have hp2 : (ch == '+') = false := beq_eq_false_iff_ne.mpr hp
    have hm2 : (ch == '-') = false := beq_eq_false_iff_ne.mpr hm
    cases hpu : ParseUint (ch :: rest) with
    | error e => simp [Atoi, h, hp2, hm2, hpu]
    | ok un => simp [Atoi, h, hp2, hm2, hpu]

theorem Atoi_unsigned_ok_iff (digits : List Char) (n : Int) :
    ((match ParseUint digits with
      | .error e => .error e
      | .ok un => if 2 ^ 63 ≤ un then .error ErrRange else .ok (un : Int)) = Except.ok n) ↔
      digits ≠ [] ∧ (∀ d ∈ digits, d.isDigit = true) ∧ n = (decimalValue digits : Int) ∧
        n < 2 ^ 63 := by
  cases hpu : ParseUint digits with
  | error e =>
    simp only [reduceCtorEq, false_iff, not_and]
    intro hne hdig hn hhi
    have hlt : decimalValue digits < 2 ^ 64 := by
      have : (decimalValue digits : Int) < 2 ^ 63 := hn ▸ hhi
      have h2 : decimalValue digits < 2 ^ 63 := by exact_mod_cast this
      omega
    have := (ParseUint_ok_iff digits (decimalValue digits)).mpr ⟨hne, hdig, rfl, hlt⟩
    rw [hpu] at this
    cases this
  | ok un =>
    obtain ⟨hne, hdig, hval, _⟩ := (ParseUint_ok_iff digits un).mp hpu
    simp only
    by_cases hr : 2 ^ 63 ≤ un
    · simp only [hr, if_true, reduceCtorEq, false_iff, not_and]
      intro _ _ hn hhi
      have : (decimalValue digits : Int) < 2 ^ 63 := hn ▸ hhi
      have h2 : decimalValue digits < 2 ^ 63 := by exact_mod_cast this
      omega
    · simp only [hr, if_false]
      constructor
      · intro h
        have hn : (un : Int) = n := Except.ok.inj h
        refine ⟨hne, hdig, ?_, ?_⟩
        · rw [← hn, hval]
        · rw [← hn]
          have : un < 2 ^ 63 := by omega
          exact_mod_cast this
      · intro h
        rw [h.2.2.1, hval]

theorem Atoi_negated_ok_iff (digits : List Char) (n : Int) :
    ((match ParseUint digits with
      | .error e => .error e
      | .ok un => if 2 ^ 63 < un then .error ErrRange else .ok (-(un : Int))) = Except.ok n) ↔
      digits ≠ [] ∧ (∀ d ∈ digits, d.isDigit = true) ∧ n = -(decimalValue digits : Int) ∧
        -(2 ^ 63) ≤ n := by
  cases hpu : ParseUint digits with
  | error e =>
    simp only [reduceCtorEq, false_iff, not_and]
    intro hne hdig hn hlo
    have hlt : decimalValue digits < 2 ^ 64 := by
      have : -(2 ^ 63 : Int) ≤ -(decimalValue digits : Int) := hn ▸ hlo
      have h1 : (decimalValue digits : Int) ≤ 2 ^ 63 := by linarith
      have h2 : decimalValue digits ≤ 2 ^ 63 := by exact_mod_cast h1
      omega
    have := (ParseUint_ok_iff digits (decimalValue digits)).mpr ⟨hne, hdig, rfl, hlt⟩
    rw [hpu] at this
    cases this
  | ok un =>
    obtain ⟨hne, hdig, hval, _⟩ := (ParseUint_ok_iff digits un).mp hpu
    simp only
    by_cases hr : 2 ^ 63 < un
    · simp only [hr, if_true, reduceCtorEq, false_iff, not_and]
      intro _ _ hn hlo
      have : -(2 ^ 63 : Int) ≤ -(decimalValue digits : Int) := hn ▸ hlo
      have h1 : (decimalValue digits : Int) ≤ 2 ^ 63 := by linarith
      have h2 : decimalValue digits ≤ 2 ^ 63 := by exact_mod_cast h1
      omega
    · simp only [hr, if_false]
      constructor
      · intro h
        have hn : -(un : Int) = n := Except.ok.inj h
        refine ⟨hne, hdig, ?_, ?_⟩
        · rw [← hn, hval]
        · rw [← hn]
          have h1 : un ≤ 2 ^ 63 := by omega
          have h2 : (un : Int) ≤ 2 ^ 63 := by exact_mod_cast h1
          linarith
      · intro h
        rw [h.2.2.1, hval]

/-- The parser `Atoi` returns `n` exactly on the decimal integers that denote `n`:
it accepts nothing else. -/
theorem Atoi_ok_iff (s : String) (n : Int) : Atoi s = .ok n ↔ IsDecimalInteger s n := by
  obtain ⟨hnil, hplus, hminus, hother⟩ := Atoi_cases s
  have hnonneg : ∀ ds : List Char, (0 : Int) ≤ (decimalValue ds : Int) :=
    fun ds => Int.ofNat_nonneg _
  unfold IsDecimalInteger
  cases hdata : s.data with
  | nil =>
    rw [hnil hdata]
    constructor
    · intro h
      cases h
    · rintro ⟨ds, hne, _, (⟨h, _⟩ | ⟨h, _⟩ | ⟨h, _⟩), _⟩
      · exact absurd h.symm hne
      · cases h
      · cases h
  | cons ch rest =>
    by_cases hp : ch = '+'
    · subst hp
      rw [hplus rest hdata, Atoi_unsigned_ok_iff]
      constructor
      · rintro ⟨hne, hdig, hn, hhi⟩
        exact ⟨rest, hne, hdig, Or.inr (Or.inl ⟨rfl, hn⟩),
          by have := hnonneg rest; omega, hhi⟩
      · rintro ⟨ds, hne, hdig, (⟨h, _⟩ | ⟨h, hn⟩ | ⟨h, _⟩), _, hhi⟩
        · have := hdig '+' (h ▸ List.mem_cons_self _ _)
          exact absurd this (by decide)
        · have hrest : rest = ds := (List.cons.inj h).2
          subst hrest
          exact ⟨hne, hdig, hn, hhi⟩
        · exact absurd (List.cons.inj h).1 (by decide)
    · by_cases hm : ch = '-'
      · subst hm
        rw [hminus rest hdata, Atoi_negated_ok_iff]
        constructor
        · rintro ⟨hne, hdig, hn, hlo⟩
          exact ⟨rest, hne, hdig, Or.inr (Or.inr ⟨rfl, hn⟩), hlo,
            by have := hnonneg rest; omega⟩
        · rintro ⟨ds, hne, hdig, (⟨h, _⟩ | ⟨h, _⟩ | ⟨h, hn⟩), hlo, _⟩
          · have := hdig '-' (h ▸ List.mem_cons_self _ _)
            exact absurd this (by decide)
          · exact absurd (List.cons.inj h).1 (by decide)
          · have hrest : rest = ds := (List.cons.inj h).2
            subst hrest
            exact ⟨hne, hdig, hn, hlo⟩
      · rw [hother ch rest hdata hp hm, Atoi_unsigned_ok_iff]
        constructor
        · rintro ⟨hne, hdig, hn, hhi⟩
          exact ⟨ch :: rest, hne, hdig, Or.inl ⟨rfl, hn⟩,
            by have := hnonneg (ch :: rest); omega, hhi⟩
        · rintro ⟨ds, hne, hdig, (⟨h, hn⟩ | ⟨h, _⟩ | ⟨h, _⟩), _, hhi⟩
          · subst h
            exact ⟨hne, hdig, hn, hhi⟩
          · exact absurd (List.cons.inj h).1 hp
          · exact absurd (List.cons.inj h).1 hm

/-- The parser `Atoi` fails exactly on the contents that are not a decimal integer. -/
theorem Atoi_error_iff (s : String) :
    (∃ e, Atoi s = .error e) ↔ ¬ ∃ n, IsDecimalInteger s n := by
  constructor
  · rintro ⟨e, he⟩ ⟨n, hn⟩
    rw [(Atoi_ok_iff s n).mpr hn] at he
    cases he
  · intro h
    cases hs : Atoi s with
    | error e => exact ⟨e, rfl⟩
    | ok n => exact absurd ⟨n, (Atoi_ok_iff s n).mp hs⟩ h

/-- C5: when the `Info` lookup of `ContainerStatus` succeeds, it returns a response
and no error, and the exit code of the response is absent exactly when the
file `exitcode` under the bundle path cannot be read or its content is not a
decimal integer (an optional sign, then decimal digits only, within the range
of a 64-bit `int`); a content that is the decimal integer `n` gives the exit
code `int32(n)`. -/
theorem containerStatus_unknown_exit_code (h : Host σ) (c : crier σ)
    (req : ContainerStatusRequest) (w : St σ) (info : ActualContainerSpec)
    (hinfo : (c.ctzr.Info req.GetContainerId w.inner).1 = .ok info) :
    ∃ exit : Option Int,
      (crier.ContainerStatus h c req w).1 =
        .ret (some { Status := some { ExitCode := exit } }) none ∧
      (exit = none ↔
        (∃ e, h.ReadFile (h.Join info.BundlePath "exitcode")
          (c.ctzr.Info req.GetContainerId w.inner).2 = .error e) ∨
        (∃ content, h.ReadFile (h.Join info.BundlePath "exitcode")
          (c.ctzr.Info req.GetContainerId w.inner).2 = .ok content ∧
          ¬ ∃ n, IsDecimalInteger content n)) ∧
      (∀ content n, h.ReadFile (h.Join info.BundlePath "exitcode")
          (c.ctzr.Info req.GetContainerId w.inner).2 = .ok content →
        IsDecimalInteger content n → exit = some (int32 n)) := by
  refine ⟨readExitCode h info.BundlePath (c.ctzr.Info req.GetContainerId w.inner).2, ?_, ?_, ?_⟩
  · simp [crier.ContainerStatus, crier.callInfo, hinfo]
  · unfold readExitCode
    cases hread : h.ReadFile (h.Join info.BundlePath "exitcode")
        (c.ctzr.Info req.GetContainerId w.inner).2 with
    | error e => simp
    | ok content =>
      cases hparse : Atoi content with
      | error e =>
        have hnot := (Atoi_error_iff content).mp ⟨e, hparse⟩
        constructor
        · intro _
          exact Or.inr ⟨content, rfl, hnot⟩
        · intro _
          simp [hparse]
      | ok x =>
        have hdec := (Atoi_ok_iff content x).mp hparse
        constructor
        · intro hnone
          simp [hparse] at hnone
        · rintro (⟨e, he⟩ | ⟨content2, h2, hnot⟩)
          · cases he
          · have hc : content = content2 := Except.ok.inj h2
            subst hc
            exact absurd ⟨x, hdec⟩ hnot
  · intro content n hread hdec
    unfold readExitCode
    rw [hread]
    simp only [(Atoi_ok_iff content n).mpr hdec]

/-- Witness for C5: the sandbox `pod` has no exit-code file, and the exit-code file of
container `ctr` holds `abc`, which is not a decimal integer; in both worlds
`ContainerStatus` answers without an error and without an exit code. -/
theorem containerStatus_unknown_exit_code_witness :
    (crier.ContainerStatus memHost memCrier { ContainerId := some "pod" } memWorld).1 =
      .ret (some { Status := some { ExitCode := none } }) none ∧
    (¬ ∃ n, IsDecimalInteger "abc" n) ∧
    (crier.ContainerStatus memHost memCrier { ContainerId := some "ctr" } memWorldGarbled).1 =
      .ret (some { Status := some { ExitCode := none } }) none := by
  have habc : ¬ ∃ n, IsDecimalInteger "abc" n := by
    rintro ⟨n, ds, _, hdig, (⟨h, _⟩ | ⟨h, _⟩ | ⟨h, _⟩), _⟩
    · have h2 : 'a' :: ['b', 'c'] = ds := h
      exact absurd (hdig 'a' (h2 ▸ List.mem_cons_self _ _)) (by decide)
    · have h2 : 'a' :: ['b', 'c'] = '+' :: ds := h
      exact absurd (List.cons.inj h2).1 (by decide)
    · have h2 : 'a' :: ['b', 'c'] = '-' :: ds := h
      exact absurd (List.cons.inj h2).1 (by decide)
  refine ⟨?_, habc, ?_⟩
  · obtain ⟨exit, hout, hiff, _⟩ := containerStatus_unknown_exit_code memHost memCrier
      { ContainerId := some "pod" } memWorld { Pid := 4242, BundlePath := "/depot/pod" } rfl
    have hnone : exit = none := hiff.mpr (Or.inl ⟨⟨"no such file or directory"⟩, rfl⟩)
    rw [hnone] at hout
    exact hout
  · obtain ⟨exit, hout, hiff, _⟩ := containerStatus_unknown_exit_code memHost memCrier
      { ContainerId := some "ctr" } memWorldGarbled
      { Pid := 4242, BundlePath := "/depot/ctr" } rfl
    have hnone : exit = none := hiff.mpr (Or.inr ⟨"abc", rfl, habc⟩)
    rw [hnone] at hout
    exact hout

/-- C6: when id generation and `Create` succeed, `RunPodSandbox` makes exactly one
containerizer call, a `Create`, whose spec has the request's hostname, the
fixed sandbox rootfs path, an empty namespace map, no process descriptor, and
as handle the sandbox id returned in the response. -/
theorem runPodSandbox_create_spec (h : Host σ) (c : crier σ) (req : RunPodSandboxRequest)
    (w : St σ) (v4 : UUID)
    (hid : (h.NewV4 w.inner).1 = .ok v4)
    (hcreate : (c.ctzr.Create (runPodSandboxSpec v4.String req) (h.NewV4 w.inner).2).1 = none) :
    ∃ (spec : DesiredContainerSpec) (id : String),
      (crier.RunPodSandbox h c req w).2.calls = w.calls ++ [Call.Create spec] ∧
      (crier.RunPodSandbox h c req w).1 = .ret (some { PodSandboxId := some id }) none ∧
      spec.Handle = id ∧
      spec.Hostname = PodSandboxConfig.GetHostname req.GetConfig ∧
      spec.RootFSPath = "/opt/warden/rootfs" ∧
      spec.NsPath = [] ∧
      spec.Process = none := by
  refine ⟨runPodSandboxSpec v4.String req, v4.String, ?_, ?_, rfl, rfl, rfl, rfl, rfl⟩
  · simp [crier.RunPodSandbox, St.newV4, hid, crier.callCreate, hcreate]
  · simp [crier.RunPodSandbox, St.newV4, hid, crier.callCreate, hcreate]

/-- Witness for C6: a sandbox requested with hostname `the-hostname` is created with
that hostname. -/
theorem runPodSandbox_create_spec_witness :
    ∃ (spec : DesiredContainerSpec) (id : String),
      (crier.RunPodSandbox memHost memCrier
        { Config := some { Hostname := some "the-hostname" } } memWorld).2.calls =
          memWorld.calls ++ [Call.Create spec] ∧
      (crier.RunPodSandbox memHost memCrier
        { Config := some { Hostname := some "the-hostname" } } memWorld).1 =
          .ret (some { PodSandboxId := some id }) none ∧
      spec.Handle = id ∧
      spec.Hostname = "the-hostname" ∧
      spec.RootFSPath = "/opt/warden/rootfs" ∧
      spec.NsPath = [] ∧
      spec.Process = none :=
  runPodSandbox_create_spec memHost memCrier
    { Config := some { Hostname := some "the-hostname" } } memWorld ⟨"id-0"⟩ rfl rfl

/-- C9: in `RunPodSandbox`, `StopPodSandbox`, `RemovePodSandbox`, `CreateContainer`,
`StartContainer` and `ContainerStatus`, an error `e` returned by the
containerizer call the operation makes (`Create`, `Stop`, `Destroy`, `Info`,
`Start`) is the error the operation returns, unchanged; and `StopPodSandbox`
calls `Stop` with the request's sandbox id and `true`. -/
theorem containerizer_error_is_returned (h : Host σ) (c : crier σ) (w : St σ) (e : Error) :
    (∀ (req : RunPodSandboxRequest) (v4 : UUID),
      (h.NewV4 w.inner).1 = .ok v4 →
      (c.ctzr.Create (runPodSandboxSpec v4.String req) (h.NewV4 w.inner).2).1 = some e →
      (crier.RunPodSandbox h c req w).1 = .ret none (some e)) ∧
    (∀ req : StopPodSandboxRequest,
      (c.StopPodSandbox req w).2.calls = w.calls ++ [Call.Stop req.GetPodSandboxId true] ∧
      ((c.ctzr.Stop req.GetPodSandboxId true w.inner).1 = some e →
        (c.StopPodSandbox req w).1 = .ret (some {}) (some e))) ∧
    (∀ req : RemovePodSandboxRequest,
      (c.ctzr.Destroy req.GetPodSandboxId w.inner).1 = some e →
      (c.RemovePodSandbox req w).1 = .ret (some {}) (some e)) ∧
    (∀ (req : CreateContainerRequest) (v4 : UUID),
      (h.NewV4 w.inner).1 = .ok v4 →
      (c.ctzr.Info req.GetPodSandboxId (h.NewV4 w.inner).2).1 = .error e →
      (crier.CreateContainer h c req w).1 = .ret none (some e)) ∧
    (∀ (req : CreateContainerRequest) (v4 : UUID) (sandbox : ActualContainerSpec),
      (h.NewV4 w.inner).1 = .ok v4 →
      (c.ctzr.Info req.GetPodSandboxId (h.NewV4 w.inner).2).1 = .ok sandbox →
      (c.ctzr.Create (createContainerSpec v4.String sandbox req)
        (c.ctzr.Info req.GetPodSandboxId (h.NewV4 w.inner).2).2).1 = some e →
      (crier.CreateContainer h c req w).1 = .ret none (some e)) ∧
    (∀ req : StartContainerRequest,
      (c.ctzr.Start req.GetContainerId w.inner).1 = some e →
      (c.StartContainer req w).1 = .ret (some {}) (some e)) ∧
    (∀ req : ContainerStatusRequest,
      (c.ctzr.Info req.GetContainerId w.inner).1 = .error e →
      (crier.ContainerStatus h c req w).1 = .ret none (some e)) := by
  refine ⟨?_, ?_, ?_, ?_, ?_, ?_, ?_⟩
  · intro req v4 hid hcreate
    simp [crier.RunPodSandbox, St.newV4, hid, crier.callCreate, hcreate]
  · intro req
    refine ⟨rfl, ?_⟩
    intro hstop
    simp [crier.StopPodSandbox, crier.callStop, hstop]
  · intro req hdestroy
    simp [crier.RemovePodSandbox, crier.callDestroy, hdestroy]
  · intro req v4 hid hinfo
    simp [crier.CreateContainer, St.newV4, hid, crier.callInfo, hinfo]
  · intro req v4 sandbox hid hinfo hcreate
    simp [crier.CreateContainer, St.newV4, hid, crier.callInfo, hinfo, crier.callCreate,
      hcreate]
  · intro req hstart
    simp [crier.StartContainer, crier.callStart, hstart]
  · intro req hinfo
    simp [crier.ContainerStatus, crier.callInfo, hinfo]

/-- Witness for C9: the in-memory containerizer refuses a handle that is taken and
a handle it does not know, and each operation returns that very error. -/
theorem containerizer_error_is_returned_witness :
    (crier.RunPodSandbox memHost memCrier {} memWorldClash).1 =
      .ret none (some ⟨"handle already exists"⟩) ∧
    ((memCrier.StopPodSandbox { PodSandboxId := some "gone" } memWorld).2.calls =
        memWorld.calls ++ [Call.Stop "gone" true] ∧
      (memCrier.StopPodSandbox { PodSandboxId := some "gone" } memWorld).1 =
        .ret (some {}) (some ⟨"unknown handle"⟩)) ∧
    (memCrier.RemovePodSandbox { PodSandboxId := some "gone" } memWorld).1 =
      .ret (some {}) (some ⟨"unknown handle"⟩) ∧
    (crier.CreateContainer memHost memCrier { PodSandboxId := some "gone" } memWorld).1 =
      .ret none (some ⟨"unknown handle"⟩) ∧
    (crier.CreateContainer memHost memCrier { PodSandboxId := some "pod" } memWorldClash).1 =
      .ret none (some ⟨"handle already exists"⟩) ∧
    (memCrier.StartContainer { ContainerId := some "gone" } memWorld).1 =
      .ret (some {}) (some ⟨"unknown handle"⟩) ∧
    (crier.ContainerStatus memHost memCrier { ContainerId := some "gone" } memWorld).1 =
      .ret none (some ⟨"unknown handle"⟩) :=
  ⟨(containerizer_error_is_returned memHost memCrier memWorldClash
      ⟨"handle already exists"⟩).1 {} ⟨"id-0"⟩ rfl rfl,
    ⟨((containerizer_error_is_returned memHost memCrier memWorld
        ⟨"unknown handle"⟩).2.1 { PodSandboxId := some "gone" }).1,
      ((containerizer_error_is_returned memHost memCrier memWorld
        ⟨"unknown handle"⟩).2.1 { PodSandboxId := some "gone" }).2 rfl⟩,
    (containerizer_error_is_returned memHost memCrier memWorld
      ⟨"unknown handle"⟩).2.2.1 { PodSandboxId := some "gone" } rfl,
    (containerizer_error_is_returned memHost memCrier memWorld
      ⟨"unknown handle"⟩).2.2.2.1 { PodSandboxId := some "gone" } ⟨"id-0"⟩ rfl rfl,
    (containerizer_error_is_returned memHost memCrier memWorldClash
      ⟨"handle already exists"⟩).2.2.2.2.1 { PodSandboxId := some "pod" } ⟨"id-0"⟩
      { Pid := 4242, BundlePath := "/depot/pod" } rfl rfl rfl,
    (containerizer_error_is_returned memHost memCrier memWorld
      ⟨"unknown handle"⟩).2.2.2.2.2.1 { ContainerId := some "gone" } rfl,
    (containerizer_error_is_returned memHost memCrier memWorld
      ⟨"unknown handle"⟩).2.2.2.2.2.2 { ContainerId := some "gone" } rfl⟩

/-! ## Theorems about the pod bundle rule -/

theorem Set_kinds_of_mem (l : List LinuxNamespace) (ns : LinuxNamespace)
    (h : ns.Type_ ∈ kinds l) : kinds (NamespaceSlice.Set l ns) = kinds l := by
  induction l with
  | nil => simp [kinds] at h
  | cons x rest ih =>
    unfold NamespaceSlice.Set
    by_cases hx : x.Type_ = ns.Type_
    · simp [hx, kinds]
    · have hrest : ns.Type_ ∈ kinds rest := by
        simp only [kinds, List.map_cons, List.mem_cons] at h
        rcases h with h | h
        · exact absurd h.symm hx
        · exact h
      simp only [hx, if_false]
      simp only [kinds, List.map_cons] at ih ⊢
      rw [ih hrest]

theorem Set_of_not_mem (l : List LinuxNamespace) (ns : LinuxNamespace)
    (h : ns.Type_ ∉ kinds l) : NamespaceSlice.Set l ns = l ++ [ns] := by
  induction l with
  | nil => rfl
  | cons x rest ih =>
    unfold NamespaceSlice.Set
    simp only [kinds, List.map_cons, List.mem_cons, not_or] at h
    have hx : ¬ x.Type_ = ns.Type_ := fun e => h.1 e.symm
    simp only [hx, if_false, List.cons_append]
    rw [ih h.2]

theorem setAll_cons (l : List LinuxNamespace) (e : LinuxNamespaceType × String)
    (m : List (LinuxNamespaceType × String)) :
    setAll l (e :: m) = setAll (NamespaceSlice.Set l { Type_ := e.1, Path := e.2 }) m := rfl

theorem foldl_WithNamespace (m : List (LinuxNamespaceType × String)) :
    ∀ b : Bndl,
      m.foldl (fun bndl e => bndl.WithNamespace { Type_ := e.1, Path := e.2 }) b =
        { b with Namespaces := setAll b.Namespaces m } := by
  induction m with
  | nil => intro b; rfl
  | cons e rest ih =>
    intro b
    rw [List.foldl_cons, ih]
    rfl

theorem podRule_Apply_eq (b : Bndl) (s : DesiredContainerSpec) :
    podRule.Apply b s =
      { b with
        Namespaces := setAll b.Namespaces s.NsPath
        Process := s.Process.getD b.Process } := by
  unfold podRule.Apply
  simp only [foldl_WithNamespace]
  cases s.Process <;> rfl

theorem mem_Set_self (l : List LinuxNamespace) (ns : LinuxNamespace) :
    ns ∈ NamespaceSlice.Set l ns := by
  induction l with
  | nil => simp [NamespaceSlice.Set]
  | cons x rest ih =>
    unfold NamespaceSlice.Set
    by_cases hx : x.Type_ = ns.Type_
    · simp [hx]
    · simp [hx, ih]

theorem mem_Set_of_ne (l : List LinuxNamespace) (ns x : LinuxNamespace) (hx : x ∈ l)
    (hne : x.Type_ ≠ ns.Type_) : x ∈ NamespaceSlice.Set l ns := by
  induction l with
  | nil => simp at hx
  | cons y rest ih =>
    unfold NamespaceSlice.Set
    rcases List.mem_cons.mp hx with h | h
    · subst h
      simp [hne]
    · by_cases hy : y.Type_ = ns.Type_
      · simp [hy, h]
      · simp [hy, ih h]

theorem Set_nodup (l : List LinuxNamespace) (ns : LinuxNamespace) (h : (kinds l).Nodup) :
    (kinds (NamespaceSlice.Set l ns)).Nodup := by
  by_cases hm : ns.Type_ ∈ kinds l
  · rw [Set_kinds_of_mem l ns hm]
    exact h
  · rw [Set_of_not_mem l ns hm]
    simp only [kinds, List.map_append, List.map_cons, List.map_nil]
    exact List.Nodup.append h (List.nodup_singleton _)
      (by simpa [List.disjoint_singleton, kinds] using hm)

theorem setAll_nodup (m : List (LinuxNamespaceType × String)) :
    ∀ l : List LinuxNamespace, (kinds l).Nodup → (kinds (setAll l m)).Nodup := by
  induction m with
  | nil => intro l h; exact h
  | cons e rest ih =>
    intro l h
    rw [setAll_cons]
    exact ih _ (Set_nodup l _ h)

theorem mem_setAll_of_not_key (m : List (LinuxNamespaceType × String)) :
    ∀ (l : List LinuxNamespace) (x : LinuxNamespace), x ∈ l → x.Type_ ∉ m.map Prod.fst →
      x ∈ setAll l m := by
  induction m with
  | nil => intro l x hx _; exact hx
  | cons e rest ih =>
    intro l x hx hk
    simp only [List.map_cons, List.mem_cons, not_or] at hk
    rw [setAll_cons]
    exact ih _ x (mem_Set_of_ne l _ x hx hk.1) hk.2

theorem mem_setAll (m : List (LinuxNamespaceType × String)) :
    ∀ (l : List LinuxNamespace) (k : LinuxNamespaceType) (p : String),
      (m.map Prod.fst).Nodup → (k, p) ∈ m →
      ({ Type_ := k, Path := p } : LinuxNamespace) ∈ setAll l m := by
  induction m with
  | nil => intro l k p _ h; simp at h
  | cons e rest ih =>
    intro l k p hn h
    have hn2 := List.nodup_cons.mp hn
    rw [setAll_cons]
    rcases List.mem_cons.mp h with h | h
    · subst h
      exact mem_setAll_of_not_key rest _ _ (mem_Set_self l _) hn2.1
    · exact ih _ k p hn2.2 h

theorem filter_kind_eq_singleton (l : List LinuxNamespace) (x : LinuxNamespace)
    (hn : (kinds l).Nodup) (hx : x ∈ l) :
    l.filter (fun ns => decide (ns.Type_ = x.Type_)) = [x] := by
  induction l with
  | nil => simp at hx
  | cons y rest ih =>
    simp only [kinds, List.map_cons, List.nodup_cons] at hn
    rcases List.mem_cons.mp hx with h | h
    · subst h
      have hnone : rest.filter (fun ns => decide (ns.Type_ = x.Type_)) = [] := by
        rw [List.filter_eq_nil_iff]
        intro a ha hd
        simp only [decide_eq_true_eq] at hd
        exact hn.1 (hd ▸ List.mem_map_of_mem LinuxNamespace.Type_ ha)
      simp [List.filter_cons, hnone]
    · have hy : ¬ y.Type_ = x.Type_ := by
        intro e
        exact hn.1 (e ▸ List.mem_map_of_mem LinuxNamespace.Type_ h)
      simp only [List.filter_cons, hy, decide_False, Bool.false_eq_true, if_false]
      exact ih hn.2 h

/-- C7: for a bundle `b` with at most one namespace entry per kind and a spec `s`
(whose namespace map, being a map, has pairwise distinct kinds), every pair
`(k, p)` of the map is found in the namespace list of `podRule.Apply b s` as
the one and only entry of kind `k`, with path `p`, whether or not `b` had an
entry of kind `k`. -/
theorem podRule_apply_spec_path_wins (b : Bndl) (s : DesiredContainerSpec)
    (hb : b.OnePerKind) (hs : s.WellFormed) (k : LinuxNamespaceType) (p : String)
    (hkp : (k, p) ∈ s.NsPath) :
    (podRule.Apply b s).Namespaces.filter (fun ns => decide (ns.Type_ = k)) =
      [{ Type_ := k, Path := p }] := by
  rw [podRule_Apply_eq]
  exact filter_kind_eq_singleton (setAll b.Namespaces s.NsPath) { Type_ := k, Path := p }
    (setAll_nodup s.NsPath b.Namespaces hb) (mem_setAll s.NsPath b.Namespaces k p hs hkp)

/-- Witness for C7: the base bundle has a fresh network namespace (empty path); after
the rule its only network entry is the sandbox's `/proc/4242/ns/net`. -/
theorem podRule_apply_spec_path_wins_witness :
    (podRule.Apply sampleBase sampleSpec).Namespaces.filter
        (fun ns => decide (ns.Type_ = "network")) =
      [{ Type_ := "network", Path := "/proc/4242/ns/net" }] :=
  podRule_apply_spec_path_wins sampleBase sampleSpec (by decide) (by decide)
    "network" "/proc/4242/ns/net" (by decide)

/-- C10: when the spec carries a process descriptor, the process descriptor of
`podRule.Apply b s` is that descriptor in full (args, working directory,
capabilities and every other field replace those set by `Base`); when the
spec carries none, it is the process descriptor of `b`. -/
theorem podRule_apply_process (b : Bndl) (s : DesiredContainerSpec) :
    (∀ process, s.Process = some process → (podRule.Apply b s).Process = process) ∧
    (s.Process = none → (podRule.Apply b s).Process = b.Process) := by
  rw [podRule_Apply_eq]
  constructor
  · intro process h
    show s.Process.getD b.Process = process
    rw [h]
    rfl
  · intro h
    show s.Process.getD b.Process = b.Process
    rw [h]
    rfl

/-- Witness for C10: the spec of `CreateContainer` replaces the base process (init
binary, base capabilities) by the requested command with no capabilities; a
spec without a process descriptor leaves the base process in place. -/
theorem podRule_apply_process_witness :
    (podRule.Apply sampleBase sampleSpec).Process =
        { Args := ["/bin/sh", "-c", "exit 55"], Cwd := "/", Capabilities := [] } ∧
    (podRule.Apply sampleBase specNetworkFirst).Process =
        baseProcess ["CAP_CHOWN", "CAP_KILL"] :=
  ⟨(podRule_apply_process sampleBase sampleSpec).1 _ rfl,
    (podRule_apply_process sampleBase specNetworkFirst).2 rfl⟩

/-! ## The failed sandbox lookup of `CreateContainer` -/

/-- C11: when the `Info` lookup of the request's sandbox id fails, `CreateContainer`
returns no response (no container id) together with an error, and none of the
containerizer calls it makes is a `Create`; when the identifier was
generated, the error is the one `Info` returned, the only call made is that
`Info`, and the containerizer is left in the state `Info` left it in. -/
theorem createContainer_info_failure_no_create (h : Host σ) (c : crier σ)
    (req : CreateContainerRequest) (w : St σ) (e : Error)
    (hinfo : (c.ctzr.Info req.GetPodSandboxId (h.NewV4 w.inner).2).1 = .error e) :
    (∃ err, (crier.CreateContainer h c req w).1 = .ret none (some err)) ∧
    (∃ added, (crier.CreateContainer h c req w).2.calls = w.calls ++ added ∧
      ∀ spec, Call.Create spec ∉ added) ∧
    (∀ v4, (h.NewV4 w.inner).1 = .ok v4 →
      (crier.CreateContainer h c req w).1 = .ret none (some e) ∧
      (crier.CreateContainer h c req w).2.calls =
        w.calls ++ [Call.Info req.GetPodSandboxId] ∧
      (crier.CreateContainer h c req w).2.inner =
        (c.ctzr.Info req.GetPodSandboxId (h.NewV4 w.inner).2).2) := by
  cases hid : (h.NewV4 w.inner).1 with
  | error err =>
    refine ⟨⟨err, ?_⟩, ⟨[], ?_, ?_⟩, ?_⟩
    · simp [crier.CreateContainer, St.newV4, hid]
    · simp [crier.CreateContainer, St.newV4, hid]
    · intro spec hmem
      simp at hmem
    · intro v4 hv4
      simp at hv4
  | ok u =>
    have hout : (crier.CreateContainer h c req w).1 = .ret none (some e) := by
      simp [crier.CreateContainer, St.newV4, hid, crier.callInfo, hinfo]
    have hcalls : (crier.CreateContainer h c req w).2.calls =
        w.calls ++ [Call.Info req.GetPodSandboxId] := by
      simp [crier.CreateContainer, St.newV4, hid, crier.callInfo, hinfo]
    have hinner : (crier.CreateContainer h c req w).2.inner =
        (c.ctzr.Info req.GetPodSandboxId (h.NewV4 w.inner).2).2 := by
      simp [crier.CreateContainer, St.newV4, hid, crier.callInfo, hinfo]
    refine ⟨⟨e, hout⟩, ⟨[Call.Info req.GetPodSandboxId], hcalls, ?_⟩, ?_⟩
    · intro spec hmem
      simp at hmem
    · intro v4 _
      exact ⟨hout, hcalls, hinner⟩

/-- Witness for C11: the in-memory containerizer does not know the sandbox `gone`;
`CreateContainer` returns its error and no response, calls `Info` only, and
no spec is added to the containers created. -/
theorem createContainer_info_failure_no_create_witness :
    (crier.CreateContainer memHost memCrier { PodSandboxId := some "gone" } memWorld).1 =
      .ret none (some ⟨"unknown handle"⟩) ∧
    (crier.CreateContainer memHost memCrier { PodSandboxId := some "gone" } memWorld).2.calls =
      [Call.Info "gone"] ∧
    (crier.CreateContainer memHost memCrier
      { PodSandboxId := some "gone" } memWorld).2.inner.created = memWorld.inner.created :=
  ⟨((createContainer_info_failure_no_create memHost memCrier { PodSandboxId := some "gone" }
      memWorld ⟨"unknown handle"⟩ rfl).2.2 ⟨"id-0"⟩ rfl).1,
    ((createContainer_info_failure_no_create memHost memCrier { PodSandboxId := some "gone" }
      memWorld ⟨"unknown handle"⟩ rfl).2.2 ⟨"id-0"⟩ rfl).2.1,
    (congrArg MemState.created
      ((createContainer_info_failure_no_create memHost memCrier { PodSandboxId := some "gone" }
        memWorld ⟨"unknown handle"⟩ rfl).2.2 ⟨"id-0"⟩ rfl).2.2).trans rfl⟩

end Kardigan
